import Mathlib

/-!
Verification of the two CI utility scripts of this repository:
`tools/ci-scripts/codegen-diff/diff_lib.py` (codegen diff pipeline) and
`tools/compiletime-benchmark/format.py` (benchmark markdown formatter).

Python strings are embedded as `List Char`.  The Python string operations
used by the scripts (`split`, `splitlines`, `replace`, substring test) are
implemented below with the exact Python semantics.  Effectful functions
(`subprocess.run`, `print(..., file=sys.stderr)`, `get_cmd_status`) are
embedded by making the external observations (the exit status of the probed
command) parameters and by returning the ordered trace of emitted effects.
-/

set_option maxRecDepth 20000

/-- A Python string, embedded as its list of characters. -/
abbrev Str := List Char

/-- Coerce a Lean string literal to the `List Char` embedding. -/
def str (s : String) : Str := s.data

/-- A single-quote character (used inside shell command strings). -/
def sqc : Str := [Char.ofNat 39]

/-- `listStarts pat s` is true when `pat` is an initial segment of `s`. -/
def listStarts : Str → Str → Bool
  | [], _ => true
  | _ :: _, [] => false
  | p :: ps, c :: cs => p == c && listStarts ps cs

/-- Python `pat in s`: `pat` occurs as a contiguous substring of `s`. -/
def containsSubL (pat : Str) : Str → Bool
  | [] => pat.isEmpty
  | c :: rest => listStarts pat (c :: rest) || containsSubL pat rest

/-- Index of the first occurrence of `pat` in `s` (meaningful when one exists). -/
def firstOcc (pat : Str) : Str → Nat
  | [] => 0
  | c :: rest => if listStarts pat (c :: rest) then 0 else firstOcc pat rest + 1

/-- Fuel-driven worker for Python `str.split(sep)` with a non-empty separator:
split at the leftmost occurrence and recurse on the remainder.  The fuel is
only a termination device; `pySplitF_irrel` shows the result does not depend
on it once it dominates the length of the input. -/
def pySplitF (sep : Str) : Nat → Str → List Str
  | 0, s => [s]
  | fuel + 1, s =>
    if containsSubL sep s = true ∧ sep ≠ [] then
      s.take (firstOcc sep s) :: pySplitF sep fuel (s.drop (firstOcc sep s + sep.length))
    else [s]

/-- Python `s.split(sep)` for a non-empty separator `sep`. -/
def pySplit (sep s : Str) : List Str := pySplitF sep s.length s

/-- Python `sep.join(pieces)`. -/
def joinSep (sep : Str) : List Str → Str
  | [] => []
  | [x] => x
  | x :: y :: rest => x ++ sep ++ joinSep sep (y :: rest)

/-- Python `s.replace(pat, rep)` for a non-empty `pat`: replace every
(leftmost, non-overlapping) occurrence.  This is the standard identity
`s.replace(p, r) = r.join(s.split(p))`. -/
def replaceAllL (pat rep s : Str) : Str := joinSep rep (pySplit pat s)

/-- Split a character list at every occurrence of the character `c`
(keeping empty pieces), the building block for Python `splitlines`. -/
def splitCharL (c : Char) : Str → List Str
  | [] => [[]]
  | d :: rest =>
    if d = c then [] :: splitCharL c rest
    else (d :: (splitCharL c rest).headD []) :: (splitCharL c rest).tail

/-- Drop the last piece when it is empty (Python `splitlines` emits no empty
final line for input ending in a newline). -/
def dropLastIfEmpty (L : List Str) : List Str :=
  if L.getLast? = some [] then L.dropLast else L

/-- Python `s.splitlines()` for strings whose only line terminator is
the newline character (the only terminator occurring in these scripts). -/
def splitLinesL (s : Str) : List Str :=
  if s = [] then [] else dropLastIfEmpty (splitCharL '\n' s)

/-- Python `list.insert(i, x)` (index clamped to the list length). -/
def insertAt : Nat → α → List α → List α
  | _, x, [] => [x]
  | 0, x, l => x :: l
  | n + 1, x, y :: l => y :: insertAt n x l

/-- Append `b` to the last piece of a piece list (helper describing how
`splitCharL` acts on an appended suffix free of the split character). -/
def extendLast (b : Str) : List Str → List Str
  | [] => [b]
  | [x] => [x ++ b]
  | x :: y :: rest => x :: extendLast b (y :: rest)

/-! ## Embedding of `tools/compiletime-benchmark/format.py` -/

/-- The literal markdown header block of `parser` in `format.py`
(initial newline, two four-space-indented table lines, trailing indent). -/
def mdHeaderL : Str :=
  str "\n    | sdk name | dev | release | dev all features | release all features |\n    | -------- | --- | ------- | ---------------- | -------------------- |\n    "

/-- The per-chunk filtering of `parser`: keep the lines not containing `+`,
strip the substring `" seconds"` from each survivor. -/
def filteredOutputs (ls : List Str) : List Str :=
  (ls.filter (fun l => !(containsSubL (str "+") l))).map
    (fun l => replaceAllL (str " seconds") [] l)

/-- The body of the per-chunk loop of `parser`: `outputs` is the filtered
line list; when it has exactly six entries the first is discarded, the next
becomes the sdk name and the remaining four the timing columns of the row. -/
def rowOfLines (ls : List Str) : Option Str :=
  let outputs := filteredOutputs ls
  if outputs.length ≠ 6 then none
  else
    let outputs2 := outputs.drop 1
    some (str "|" ++ outputs2.headD [] ++ str "|" ++
      joinSep (str "|") (outputs2.drop 1) ++ str "|")

/-- One iteration of the `for i in iter` loop of `parser`: split the chunk
into lines and apply the row construction. -/
def processChunk (chunk : Str) : Option Str := rowOfLines (splitLinesL chunk)

/-- `parser` of `format.py`: the header block followed by the rows of the
qualifying chunks, appended in input order with no separator. -/
def parser_table (chunks : List Str) : Str :=
  mdHeaderL ++ (chunks.filterMap processChunk).flatten

/-- The pure content of `read_file` of `format.py`: split the file text on
`START`, split every piece on `END`, and flatten. -/
def read_file_chunks (f : Str) : List Str :=
  ((pySplit (str "START") f).map (pySplit (str "END"))).flatten

/-- The whole benchmark-formatting pipeline: `parser(read_file())` on a
given file text. -/
def formatInput (f : Str) : Str := parser_table (read_file_chunks f)

/-! ## Embedding of `tools/ci-scripts/codegen-diff/diff_lib.py` -/

/-- Module constants of `diff_lib.py`. -/
def HEAD_BRANCH_NAME : Str := str "__tmp-localonly-head"

/-- See `HEAD_BRANCH_NAME`. -/
def BASE_BRANCH_NAME : Str := str "__tmp-localonly-base"

/-- The staging directory `tmp-codegen-diff`. -/
def OUTPUT_PATH : Str := str "tmp-codegen-diff"

/-- The CDN that serves the rendered diff artifacts. -/
def CDN_URL : Str := str "https://d2luzm2xt3nokh.cloudfront.net"

/-- An observable effect of the pipeline: a shell command passed to `run`,
a line printed to stderr by `eprint`, or a command probed for its exit
status by `get_cmd_status`. -/
inductive Effect where
  | runCmd : Str → Effect
  | log : Str → Effect
  | probe : Str → Effect
  deriving DecidableEq, Repr

/-- Python `f"...{x}..."` interpolation of an optional string: `None`
renders as the literal text `None`. -/
def pyStrOpt : Option Str → Str
  | none => str "None"
  | some s => s

/-- `diff_link` of `diff_lib.py`. -/
def diff_link (diff_text empty_diff_text : Str) (diff_location : Option Str)
    (alternate_text : Str) (alternate_location : Option Str) : Str :=
  match diff_location with
  | none => empty_diff_text
  | some loc =>
    str "[" ++ diff_text ++ str "](" ++ CDN_URL ++ str "/codegen-diff/" ++ loc ++
      str ") ([" ++ alternate_text ++ str "](" ++ CDN_URL ++ str "/codegen-diff/" ++
      pyStrOpt alternate_location ++ str "))"

/-- `make_diff` of `diff_lib.py`.  The exit status of the probed quiet
`git diff` is the parameter `diff_status`; the function returns the value
returned by the Python function together with the ordered trace of its
effects. -/
def make_diff (title path_to_diff base_commit_sha head_commit_sha suffix : Str)
    (whitespace : Bool) (diff_status : Nat) : Option Str × List Effect :=
  let whitespace_flag := if whitespace then str "" else str "-b"
  let quiet_cmd := str "git diff --quiet " ++ whitespace_flag ++ str " " ++
    BASE_BRANCH_NAME ++ str " " ++ HEAD_BRANCH_NAME ++ str " -- " ++ path_to_diff
  if diff_status = 0 then
    (none, [Effect.probe quiet_cmd,
      Effect.log (str "No diff output for " ++ base_commit_sha ++ str ".." ++
        head_commit_sha ++ str " (" ++ suffix ++ str ")")])
  else
    let relative_output_path := base_commit_sha ++ str "/" ++ head_commit_sha ++
      str "/" ++ suffix
    let full_output_path := OUTPUT_PATH ++ str "/" ++ relative_output_path
    let whitespace_context := if whitespace then str "" else str "(ignoring whitespace)"
    let subtitle := str "rev. " ++ head_commit_sha ++ str " " ++ whitespace_context
    let diff_cmd := str "difftags --output-dir " ++ full_output_path ++
      str " --title \"" ++ title ++ str "\" --subtitle \"" ++ subtitle ++
      str "\" codegen-diff.txt"
    (some (relative_output_path ++ str "/index.html"),
     [Effect.probe quiet_cmd,
      Effect.runCmd (str "mkdir -p " ++ full_output_path),
      Effect.runCmd (str "git diff --output=codegen-diff.txt -U30 " ++
        whitespace_flag ++ str " " ++ BASE_BRANCH_NAME ++ str " " ++
        HEAD_BRANCH_NAME ++ str " -- " ++ path_to_diff),
      Effect.log (str "Running diff cmd: " ++ diff_cmd),
      Effect.runCmd diff_cmd])

/-- `make_diffs` of `diff_lib.py`.  The eight quiet-diff exit statuses
(whitespace-sensitive and -insensitive, for SDK, client test, server test
and server test python, in source order) are passed as parameters; the
result is the summary message. -/
def make_diffs (base_commit_sha head_commit_sha : Str)
    (s1 s2 s3 s4 s5 s6 s7 s8 : Nat) : Str :=
  let sdk_ws := (make_diff (str "AWS SDK") (OUTPUT_PATH ++ str "/aws-sdk")
    base_commit_sha head_commit_sha (str "aws-sdk") true s1).1
  let sdk_nows := (make_diff (str "AWS SDK") (OUTPUT_PATH ++ str "/aws-sdk")
    base_commit_sha head_commit_sha (str "aws-sdk-ignore-whitespace") false s2).1
  let client_ws := (make_diff (str "Client Test") (OUTPUT_PATH ++ str "/codegen-client-test")
    base_commit_sha head_commit_sha (str "client-test") true s3).1
  let client_nows := (make_diff (str "Client Test") (OUTPUT_PATH ++ str "/codegen-client-test")
    base_commit_sha head_commit_sha (str "client-test-ignore-whitespace") false s4).1
  let server_ws := (make_diff (str "Server Test") (OUTPUT_PATH ++ str "/codegen-server-test")
    base_commit_sha head_commit_sha (str "server-test") true s5).1
  let server_nows := (make_diff (str "Server Test") (OUTPUT_PATH ++ str "/codegen-server-test")
    base_commit_sha head_commit_sha (str "server-test-ignore-whitespace") false s6).1
  let server_ws_python := (make_diff (str "Server Test Python") (OUTPUT_PATH ++ str "/codegen-server-test-python")
    base_commit_sha head_commit_sha (str "server-test-python") true s7).1
  let server_nows_python := (make_diff (str "Server Test Python") (OUTPUT_PATH ++ str "/codegen-server-test-python")
    base_commit_sha head_commit_sha (str "server-test-python-ignore-whitespace") false s8).1
  let sdk_links := diff_link (str "AWS SDK") (str "No codegen difference in the AWS SDK")
    sdk_ws (str "ignoring whitespace") sdk_nows
  let client_links := diff_link (str "Client Test") (str "No codegen difference in the Client Test")
    client_ws (str "ignoring whitespace") client_nows
  let server_links := diff_link (str "Server Test") (str "No codegen difference in the Server Test")
    server_ws (str "ignoring whitespace") server_nows
  let server_links_python := diff_link (str "Server Test Python") (str "No codegen difference in the Server Test Python")
    server_ws_python (str "ignoring whitespace") server_nows_python
  str "A new generated diff is ready to view.\\n" ++
    str "- " ++ sdk_links ++ str "\\n" ++
    str "- " ++ client_links ++ str "\\n" ++
    str "- " ++ server_links ++ str "\\n" ++
    str "- " ++ server_links_python ++ str "\\n"

/-- `generate_and_commit_generated_code` of `diff_lib.py`, embedded as the
ordered trace of the shell commands it runs.  Python's `targets or [...]`
substitutes the default list when `targets` is `None` or empty. -/
def generate_and_commit_generated_code (revision_sha : Str)
    (targets : Option (List Str)) : List Effect :=
  let defaults := [str "codegen-client-test", str "codegen-server-test", str "aws:sdk"]
  let ts := match targets with
    | none => defaults
    | some l => if l.isEmpty then defaults else l
  [Effect.runCmd (str "rm -rf aws/sdk/build")]
  ++ (if str "codegen-server-test" ∈ ts then
        [Effect.runCmd (str "cd rust-runtime/aws-smithy-http-server-python/examples && make distclean")]
      else [])
  ++ [Effect.runCmd (str "./gradlew codegen-core:clean codegen-client:clean codegen-server:clean aws:sdk-codegen:clean"),
      Effect.runCmd (str "./gradlew --rerun-tasks " ++
        joinSep (str " ") (ts.map (fun t => t ++ str ":assemble")))]
  ++ (if str "codegen-server-test" ∈ ts then
        [Effect.runCmd (str "cd rust-runtime/aws-smithy-http-server-python/examples && make build")]
      else [])
  ++ [Effect.runCmd (str "rm -rf " ++ OUTPUT_PATH),
      Effect.runCmd (str "mkdir " ++ OUTPUT_PATH)]
  ++ (if str "aws:sdk" ∈ ts then
        [Effect.runCmd (str "mv aws/sdk/build/aws-sdk " ++ OUTPUT_PATH ++ str "/")]
      else [])
  ++ (([str "codegen-client", str "codegen-server"].map (fun target =>
        if target ∈ ts then
          [Effect.runCmd (str "mv " ++ target ++ str "/build/smithyprojections/" ++
            target ++ str " " ++ OUTPUT_PATH ++ str "/")]
          ++ (if target = str "codegen-server-test" then
                [Effect.runCmd (str "mv rust-runtime/aws-smithy-http-server-python/examples/pokemon-service-server-sdk/ " ++
                  OUTPUT_PATH ++ str "/codegen-server-test-python/")]
              else [])
        else [])).flatten)
  ++ [Effect.runCmd (str "rm -f " ++ OUTPUT_PATH ++ str "/aws-sdk/versions.toml"),
      Effect.runCmd (str "rm -rf " ++ OUTPUT_PATH ++ str "/codegen-client-test/source"),
      Effect.runCmd (str "find " ++ OUTPUT_PATH ++ str "/codegen-client-test | grep -E " ++
        sqc ++ str "smithy-build-info.json|sources/manifest|model.json" ++ sqc ++ str " | xargs rm -f"),
      Effect.runCmd (str "rm -rf " ++ OUTPUT_PATH ++ str "/codegen-server-test/source"),
      Effect.runCmd (str "find " ++ OUTPUT_PATH ++ str "/codegen-server-test | grep -E " ++
        sqc ++ str "smithy-build-info.json|sources/manifest|model.json" ++ sqc ++ str " | xargs rm -f"),
      Effect.runCmd (str "git add -f " ++ OUTPUT_PATH),
      Effect.runCmd (str "git -c " ++ sqc ++ str "user.name=GitHub Action (generated code preview)" ++ sqc ++
        str " -c " ++ sqc ++ str "user.name=GitHub Action (generated code preview)" ++ sqc ++
        str " -c " ++ sqc ++ str "user.email=generated-code-action@github.com" ++ sqc ++
        str " commit --no-verify -m " ++ sqc ++ str "Generated code for " ++ revision_sha ++ sqc ++
        str " --allow-empty")]

/-- True exactly for a shell command that starts with `mv `. -/
def isMvCmd : Effect → Bool
  | Effect.runCmd c => listStarts (str "mv ") c
  | _ => false

/-- The two-character escaped-newline sequence (backslash, `n`) used by
`make_diffs` to separate the summary lines. -/
def escL : Str := str "\\n"

/-- `x` does not contain the escaped-newline sequence. -/
abbrev noesc (x : Str) : Prop := containsSubL escL x = false


/-! ## Lemmas about the embedded string operations -/

theorem listStarts_iff : ∀ (pat s : Str), listStarts pat s = true ↔ ∃ y, s = pat ++ y
  | [], s => by simp [listStarts]
  | p :: ps, [] => by simp [listStarts]
  | p :: ps, c :: cs => by
    rw [show listStarts (p :: ps) (c :: cs) = (p == c && listStarts ps cs) from rfl]
    simp only [Bool.and_eq_true, beq_iff_eq, listStarts_iff ps cs, List.cons_append,
      List.cons.injEq]
    constructor
    · rintro ⟨rfl, y, rfl⟩; exact ⟨y, rfl, rfl⟩
    · rintro ⟨y, rfl, rfl⟩; exact ⟨rfl, y, rfl⟩

theorem containsSubL_iff : ∀ (pat s : Str), containsSubL pat s = true ↔ ∃ x y, s = x ++ pat ++ y
  | pat, [] => by
    constructor
    · intro h
      have hp : pat = [] := by
        cases pat with
        | nil => rfl
        | cons p ps => simp [containsSubL, List.isEmpty] at h
      exact ⟨[], [], by simp [hp]⟩
    · rintro ⟨x, y, h⟩
      rcases List.append_eq_nil.mp h.symm with ⟨h1, rfl⟩
      rcases List.append_eq_nil.mp h1 with ⟨rfl, rfl⟩
      rfl
  | pat, c :: rest => by
    rw [show containsSubL pat (c :: rest) =
      (listStarts pat (c :: rest) || containsSubL pat rest) from rfl]
    rw [Bool.or_eq_true, listStarts_iff, containsSubL_iff pat rest]
    constructor
    · rintro (⟨y, hy⟩ | ⟨x, y, hxy⟩)
      · exact ⟨[], y, by simpa using hy⟩
      · exact ⟨c :: x, y, by simp [hxy]⟩
    · rintro ⟨x, y, hxy⟩
      cases x with
      | nil => exact Or.inl ⟨y, by simpa using hxy⟩
      | cons d x' =>
        simp only [List.cons_append, List.cons.injEq] at hxy
        exact Or.inr ⟨x', y, hxy.2⟩

theorem containsSubL_cons_false {pat : Str} {c : Char} {rest : Str}
    (h : containsSubL pat (c :: rest) = false) :
    listStarts pat (c :: rest) = false ∧ containsSubL pat rest = false := by
  rw [show containsSubL pat (c :: rest) =
    (listStarts pat (c :: rest) || containsSubL pat rest) from rfl] at h
  exact Bool.or_eq_false_iff.mp h

theorem pySplitF_irrel (sep : Str) : ∀ (f g : Nat) (s : Str), s.length ≤ f → s.length ≤ g →
    pySplitF sep f s = pySplitF sep g s := by
  intro f
  induction f with
  | zero =>
    intro g s hf _
    have hs : s = [] := List.length_eq_zero.mp (Nat.le_zero.mp hf)
    subst hs
    cases g with
    | zero => rfl
    | succ g =>
      simp only [pySplitF]
      rw [if_neg]
      rintro ⟨hc, hne⟩
      cases sep with
      | nil => exact hne rfl
      | cons a as => simp [containsSubL, List.isEmpty] at hc
  | succ f ih =>
    intro g s hf hg
    cases g with
    | zero =>
      have hs : s = [] := List.length_eq_zero.mp (Nat.le_zero.mp hg)
      subst hs
      simp only [pySplitF]
      rw [if_neg]
      rintro ⟨hc, hne⟩
      cases sep with
      | nil => exact hne rfl
      | cons a as => simp [containsSubL, List.isEmpty] at hc
    | succ g =>
      simp only [pySplitF]
      by_cases h : containsSubL sep s = true ∧ sep ≠ []
      · rw [if_pos h, if_pos h]
        have hslen : 1 ≤ s.length := by
          rcases h with ⟨hc, hne⟩
          cases s with
          | nil =>
            exfalso
            cases sep with
            | nil => exact hne rfl
            | cons a as => simp [containsSubL, List.isEmpty] at hc
          | cons c cs => simp
        have hsep1 : 1 ≤ sep.length := by
          rcases h with ⟨_, hne⟩
          cases sep with
          | nil => exact absurd rfl hne
          | cons a as => simp
        congr 1
        apply ih
        · rw [List.length_drop]; omega
        · rw [List.length_drop]; omega
      · rw [if_neg h, if_neg h]

theorem pySplit_eq_pos (sep s : Str) (hne : sep ≠ []) (hc : containsSubL sep s = true) :
    pySplit sep s = s.take (firstOcc sep s) ::
      pySplit sep (s.drop (firstOcc sep s + sep.length)) := by
  have hsep1 : 1 ≤ sep.length := by
    cases sep with
    | nil => exact absurd rfl hne
    | cons a as => simp
  cases hL : s.length with
  | zero =>
    exfalso
    have hs : s = [] := List.length_eq_zero.mp hL
    subst hs
    cases sep with
    | nil => exact hne rfl
    | cons a as => simp [containsSubL, List.isEmpty] at hc
  | succ n =>
    unfold pySplit
    rw [hL]
    simp only [pySplitF]
    rw [if_pos ⟨hc, hne⟩]
    congr 1
    apply pySplitF_irrel
    · rw [List.length_drop]; omega
    · exact Nat.le_refl _

theorem pySplit_eq_neg (sep s : Str) (h : ¬ (containsSubL sep s = true ∧ sep ≠ [])) :
    pySplit sep s = [s] := by
  unfold pySplit
  cases hL : s.length with
  | zero => rfl
  | succ n =>
    simp only [pySplitF]
    rw [if_neg h]

theorem firstOcc_two (p q : Char) (hpq : p ≠ q) :
    ∀ (a b : Str), containsSubL [p, q] a = false →
      firstOcc [p, q] (a ++ ([p, q] ++ b)) = a.length := by
  intro a
  induction a with
  | nil =>
    intro b _
    show firstOcc [p, q] (p :: q :: b) = 0
    simp [firstOcc, listStarts]
  | cons c a' ih =>
    intro b hc
    rcases containsSubL_cons_false hc with ⟨hs1, hc'⟩
    have hqp : (q == p) = false := by
      cases hq : q == p
      · rfl
      · exact absurd (beq_iff_eq.mp hq).symm hpq
    have hstarts : listStarts [p, q] (c :: (a' ++ ([p, q] ++ b))) = false := by
      cases a' with
      | nil =>
        show (p == c && (q == p && true)) = false
        simp [hqp]
      | cons d a'' =>
        have h2 := hs1
        simp only [listStarts] at h2 ⊢
        exact h2
    rw [List.cons_append]
    simp only [firstOcc]
    rw [if_neg (by simpa using hstarts)]
    rw [ih b hc']
    simp

theorem pySplit_esc_cons (a b : Str) (ha : noesc a) :
    pySplit escL (a ++ (escL ++ b)) = a :: pySplit escL b := by
  have hne : escL ≠ [] := by decide
  have hc : containsSubL escL (a ++ (escL ++ b)) = true :=
    (containsSubL_iff escL _).mpr ⟨a, b, by simp⟩
  have hocc : firstOcc escL (a ++ (escL ++ b)) = a.length :=
    firstOcc_two (Char.ofNat 92) 'n' (by decide) a b ha
  have htake : (a ++ (escL ++ b)).take a.length = a := List.take_left a (escL ++ b)
  have hdrop : (a ++ (escL ++ b)).drop (a.length + escL.length) = b := by
    rw [← List.append_assoc, ← List.length_append]
    exact List.drop_left _ _
  rw [pySplit_eq_pos escL _ hne hc, hocc, htake, hdrop]

theorem pySplit_esc_end (a : Str) (ha : noesc a) : pySplit escL (a ++ escL) = [a, []] := by
  have h1 : a ++ escL = a ++ (escL ++ []) := by simp
  rw [h1, pySplit_esc_cons a [] ha, pySplit_eq_neg escL [] (by decide)]

theorem containsSubL_two_append (p q : Char) :
    ∀ (x y : Str), containsSubL [p, q] x = false → containsSubL [p, q] y = false →
      (x.getLast? ≠ some p ∨ y.head? ≠ some q) →
      containsSubL [p, q] (x ++ y) = false := by
  intro x
  induction x with
  | nil => intro y _ hy _; simpa using hy
  | cons c x' ih =>
    intro y hx hy hb
    rcases containsSubL_cons_false hx with ⟨hsx, hx'⟩
    rw [List.cons_append]
    rw [show containsSubL [p, q] (c :: (x' ++ y)) =
      (listStarts [p, q] (c :: (x' ++ y)) || containsSubL [p, q] (x' ++ y)) from rfl]
    rw [Bool.or_eq_false_iff]
    constructor
    · cases x' with
      | nil =>
        cases y with
        | nil => simp [listStarts]
        | cons e y' =>
          show (p == c && (q == e && true)) = false
          rcases hb with hb | hb
          · have hcp : (p == c) = false := by
              cases hpc : p == c
              · rfl
              · exact absurd (by simpa using (beq_iff_eq.mp hpc).symm) hb
            simp [hcp]
          · have heq : (q == e) = false := by
              cases hqe : q == e
              · rfl
              · exact absurd (by simpa using (beq_iff_eq.mp hqe).symm) hb
            simp [heq]
      | cons d x'' =>
        have h2 := hsx
        simp only [listStarts] at h2 ⊢
        exact h2
    · cases x' with
      | nil => simpa using hy
      | cons d x'' =>
        apply ih y hx' hy
        rcases hb with hb | hb
        · exact Or.inl (by simpa [List.getLast?_cons_cons] using hb)
        · exact Or.inr hb

theorem noesc_append {x y : Str} (hx : noesc x) (hy : noesc y)
    (hb : x.getLast? ≠ some (Char.ofNat 92) ∨ y.head? ≠ some 'n') : noesc (x ++ y) :=
  containsSubL_two_append (Char.ofNat 92) 'n' x y hx hy hb

theorem splitCharL_ne_nil (c : Char) : ∀ s : Str, splitCharL c s ≠ []
  | [] => by simp [splitCharL]
  | d :: rest => by
    simp only [splitCharL]
    split <;> simp

theorem extendLast_cons_of_ne_nil (b x : Str) (l : List Str) (hl : l ≠ []) :
    extendLast b (x :: l) = x :: extendLast b l := by
  cases l with
  | nil => exact absurd rfl hl
  | cons y l' => rfl

theorem splitCharL_no_occ (c : Char) : ∀ b : Str, c ∉ b → splitCharL c b = [b]
  | [], _ => rfl
  | d :: rest, h => by
    have hd : d ≠ c := fun hdc => h (hdc ▸ List.mem_cons_self d rest)
    have hr : c ∉ rest := fun hc => h (List.mem_cons_of_mem d hc)
    simp only [splitCharL]
    rw [if_neg hd, splitCharL_no_occ c rest hr]
    rfl

theorem splitCharL_append_no (c : Char) (b : Str) (hb : c ∉ b) :
    ∀ a : Str, splitCharL c (a ++ b) = extendLast b (splitCharL c a)
  | [] => by rw [List.nil_append, splitCharL_no_occ c b hb]; rfl
  | d :: a' => by
    rw [List.cons_append]
    simp only [splitCharL]
    by_cases hd : d = c
    · rw [if_pos hd, if_pos hd, splitCharL_append_no c b hb a',
        extendLast_cons_of_ne_nil b [] (splitCharL c a') (splitCharL_ne_nil c a')]
    · rw [if_neg hd, if_neg hd, splitCharL_append_no c b hb a']
      cases hS : splitCharL c a' with
      | nil => exact absurd hS (splitCharL_ne_nil c a')
      | cons p ps =>
        cases ps with
        | nil => rfl
        | cons r rs => rfl

theorem headD_mem_of_ne_nil {L : List Str} (h : L ≠ []) : L.headD [] ∈ L := by
  cases L with
  | nil => exact absurd rfl h
  | cons x l => simp

theorem splitCharL_not_mem (c : Char) : ∀ (s l : Str), l ∈ splitCharL c s → c ∉ l
  | [], l, hl => by
    simp [splitCharL] at hl
    simp [hl]
  | d :: rest, l, hl => by
    simp only [splitCharL] at hl
    by_cases hd : d = c
    · rw [if_pos hd] at hl
      rcases List.mem_cons.mp hl with rfl | hmem
      · simp
      · exact splitCharL_not_mem c rest l hmem
    · rw [if_neg hd] at hl
      rcases List.mem_cons.mp hl with rfl | hmem
      · intro hcl
        rcases List.mem_cons.mp hcl with rfl | hcl2
        · exact hd rfl
        · exact splitCharL_not_mem c rest _
            (headD_mem_of_ne_nil (splitCharL_ne_nil c rest)) hcl2
      · exact splitCharL_not_mem c rest l (List.mem_of_mem_tail hmem)

theorem splitLinesL_no_newline (s l : Str) (hl : l ∈ splitLinesL s) :
    Char.ofNat 10 ∉ l := by
  simp only [splitLinesL] at hl
  by_cases hs : s = []
  · rw [if_pos hs] at hl
    simp at hl
  · rw [if_neg hs] at hl
    simp only [dropLastIfEmpty] at hl
    have hl2 : l ∈ splitCharL (Char.ofNat 10) s := by
      by_cases hlast : (splitCharL (Char.ofNat 10) s).getLast? = some []
      · rw [if_pos hlast] at hl
        exact (List.dropLast_sublist _).subset hl
      · rw [if_neg hlast] at hl
        exact hl
    exact splitCharL_not_mem (Char.ofNat 10) s l hl2

theorem pySplitF_chars (sep : Str) : ∀ (f : Nat) (s piece : Str), piece ∈ pySplitF sep f s →
    ∀ c : Char, c ∈ piece → c ∈ s := by
  intro f
  induction f with
  | zero =>
    intro s piece hp c hc
    simp [pySplitF] at hp
    subst hp
    exact hc
  | succ f ih =>
    intro s piece hp c hc
    simp only [pySplitF] at hp
    split at hp
    · rcases List.mem_cons.mp hp with rfl | hmem
      · exact List.take_subset _ _ hc
      · exact List.drop_subset _ _ (ih _ _ hmem c hc)
    · simp at hp
      subst hp
      exact hc

theorem joinSep_chars (sep : Str) : ∀ (L : List Str) (c : Char), c ∈ joinSep sep L →
    c ∈ sep ∨ ∃ x ∈ L, c ∈ x
  | [], c, hc => by simp [joinSep] at hc
  | [x], c, hc => Or.inr ⟨x, by simp, hc⟩
  | x :: y :: rest, c, hc => by
    simp only [joinSep] at hc
    rcases List.mem_append.mp hc with h1 | h2
    · rcases List.mem_append.mp h1 with hx | hs
      · exact Or.inr ⟨x, by simp, hx⟩
      · exact Or.inl hs
    · rcases joinSep_chars sep (y :: rest) c h2 with h | ⟨z, hz, hcz⟩
      · exact Or.inl h
      · exact Or.inr ⟨z, List.mem_cons_of_mem x hz, hcz⟩

theorem replaceAllL_chars (pat rep s : Str) (c : Char) (hc : c ∈ replaceAllL pat rep s) :
    c ∈ rep ∨ c ∈ s := by
  rcases joinSep_chars rep (pySplit pat s) c hc with h | ⟨x, hx, hcx⟩
  · exact Or.inl h
  · exact Or.inr (pySplitF_chars pat s.length s x hx c hcx)

theorem filter_insertAt {α : Type} (p : α → Bool) (x : α) (hx : p x = false) :
    ∀ (n : Nat) (l : List α), (insertAt n x l).filter p = l.filter p
  | n, [] => by cases n <;> simp [insertAt, List.filter, hx]
  | 0, y :: l => by simp [insertAt, List.filter_cons, hx]
  | n + 1, y :: l => by
    simp only [insertAt, List.filter_cons]
    rw [filter_insertAt p x hx n l]

theorem splitCharL_mdHeader : splitCharL '\n' mdHeaderL = [[],
    str "    | sdk name | dev | release | dev all features | release all features |",
    str "    | -------- | --- | ------- | ---------------- | -------------------- |",
    str "    "] := by decide

theorem splitLinesL_mdHeader_append (t : Str) (ht : Char.ofNat 10 ∉ t) :
    splitLinesL (mdHeaderL ++ t) = [[],
      str "    | sdk name | dev | release | dev all features | release all features |",
      str "    | -------- | --- | ------- | ---------------- | -------------------- |",
      str "    " ++ t] := by
  have hne : mdHeaderL ++ t ≠ [] := by
    intro h
    exact absurd (List.append_eq_nil.mp h).1 (by decide)
  simp only [splitLinesL]
  rw [if_neg hne, splitCharL_append_no '\n' t ht mdHeaderL, splitCharL_mdHeader]
  rw [show extendLast t [[],
      str "    | sdk name | dev | release | dev all features | release all features |",
      str "    | -------- | --- | ------- | ---------------- | -------------------- |",
      str "    "] = [[],
      str "    | sdk name | dev | release | dev all features | release all features |",
      str "    | -------- | --- | ------- | ---------------- | -------------------- |",
      str "    " ++ t] from rfl]
  have hlast : ([[],
      str "    | sdk name | dev | release | dev all features | release all features |",
      str "    | -------- | --- | ------- | ---------------- | -------------------- |",
      str "    " ++ t] : List Str).getLast? ≠ some [] := by
    simp only [List.getLast?_cons_cons, List.getLast?_singleton]
    intro h
    rw [Option.some.injEq] at h
    exact absurd (List.append_eq_nil.mp h).1 (by decide)
  simp only [dropLastIfEmpty]
  rw [if_neg hlast]

theorem processChunk_no_newline (chunk row : Str) (h : processChunk chunk = some row) :
    Char.ofNat 10 ∉ row := by
  have houts : ∀ x ∈ filteredOutputs (splitLinesL chunk), Char.ofNat 10 ∉ x := by
    intro x hx
    simp only [filteredOutputs, List.mem_map] at hx
    rcases hx with ⟨l, hl, rfl⟩
    intro hmem
    rcases replaceAllL_chars _ _ _ _ hmem with hmem2 | hmem2
    · exact absurd hmem2 (by simp)
    · exact splitLinesL_no_newline chunk l (List.mem_filter.mp hl).1 hmem2
  simp only [processChunk, rowOfLines] at h
  by_cases h6 : (filteredOutputs (splitLinesL chunk)).length ≠ 6
  · rw [if_pos h6] at h
    exact absurd h (by simp)
  · rw [if_neg h6] at h
    rw [Option.some.injEq] at h
    subst h
    intro hmem
    simp only [List.mem_append] at hmem
    rcases hmem with ((((hm | hm) | hm) | hm) | hm)
    · exact absurd hm (by decide)
    · cases ho : ((filteredOutputs (splitLinesL chunk)).drop 1) with
      | nil => rw [ho] at hm; simp at hm
      | cons z zs =>
        rw [ho] at hm
        have hz : z ∈ filteredOutputs (splitLinesL chunk) :=
          List.drop_subset 1 _ (ho ▸ List.mem_cons_self z zs)
        exact houts z hz (by simpa using hm)
    · exact absurd hm (by decide)
    · rcases joinSep_chars _ _ _ hm with hsep | ⟨z, hz, hcz⟩
      · exact absurd hsep (by decide)
      · exact houts z (List.drop_subset _ _ (List.drop_subset _ _ hz)) hcz
    · exact absurd hm (by decide)

/-! ## Claim theorems for the benchmark formatter -/

/-- Claim C3: a chunk of the benchmark parser emits a table row if and only
if exactly six lines survive the filtering (lines containing `+` removed,
`" seconds"` stripped); in particular a chunk with only five non-separator
lines yields no row.  (The embedding is a total function, so no exception is
raised on any chunk.) -/
theorem parser_row_iff_six_lines :
    (∀ chunk : Str, (processChunk chunk).isSome = true ↔
      (filteredOutputs (splitLinesL chunk)).length = 6) ∧
    processChunk (str " header\n201.92 seconds\n217.43 seconds\n215.10 seconds\n187.71 seconds") = none := by
  constructor
  · intro chunk
    simp only [processChunk, rowOfLines]
    by_cases h6 : (filteredOutputs (splitLinesL chunk)).length ≠ 6
    · rw [if_pos h6]
      simpa using h6
    · rw [if_neg h6]
      simpa using not_not.mp h6
  · decide

/-- Claim C2 (counterexample): on the input text
`START\n header\n iam\n201.92 seconds\n217.43 seconds\n215.10 seconds\n187.71 seconds\nEND`
the benchmark formatter's output does not contain the row
`|iam|201.92|217.43|215.10|187.71|` (the chunk has seven surviving lines,
so it is skipped). -/
theorem parser_iam_scenario_row_absent :
    containsSubL (str "|iam|201.92|217.43|215.10|187.71|")
      (formatInput (str "START\n header\n iam\n201.92 seconds\n217.43 seconds\n215.10 seconds\n187.71 seconds\nEND")) = false := by
  decide

/-- Claim C2 (amended): on that input the formatter's output is exactly the
fixed header block: the only chunk between the sentinels has seven surviving
lines (the empty line produced by the newline directly after `START` also
counts), not six, so no row is emitted. -/
theorem parser_iam_scenario_header_only :
    formatInput (str "START\n header\n iam\n201.92 seconds\n217.43 seconds\n215.10 seconds\n187.71 seconds\nEND") =
      mdHeaderL := by decide

/-- Claim C7 (counterexample): inserting the line `+START` (which contains
`+`) at a line boundary of an input changes the parser's output: the
inserted sentinel splits the chunk, so the previously qualifying chunk no
longer yields a row. -/
theorem parser_plus_insertion_cx :
    containsSubL (str "+") (str "+START") = true ∧
    formatInput (str "STARTx\na\nb\n" ++ str "+START\n" ++ str "c\nd\ne\nEND") ≠
      formatInput (str "STARTx\na\nb\n" ++ str "c\nd\ne\nEND") := by decide

/-- Claim C7 (amended): within a chunk, inserting an extra line containing
`+` at any position of the chunk's line sequence leaves the parsed row (and
hence the output table) unchanged; only insertions whose text reaches the
`START`/`END` sentinel layer can alter the output. -/
theorem row_unchanged_plus_insertion (ls : List Str) (i : Nat) (line : Str)
    (h : containsSubL (str "+") line = true) :
    rowOfLines (insertAt i line ls) = rowOfLines ls := by
  have hfo : filteredOutputs (insertAt i line ls) = filteredOutputs ls := by
    simp only [filteredOutputs]
    rw [filter_insertAt _ line (by simp [h]) i ls]
  simp only [rowOfLines, hfo]

/-- Witness for `row_unchanged_plus_insertion` at a concrete six-line chunk
and a concrete `+`-containing separator line. -/
theorem row_unchanged_plus_insertion_witness :
    rowOfLines (insertAt 3 (str "+----+")
        [str "h", str "iam", str "1", str "2", str "3", str "4"]) =
      rowOfLines [str "h", str "iam", str "1", str "2", str "3", str "4"] ∧
    rowOfLines [str "h", str "iam", str "1", str "2", str "3", str "4"] =
      some (str "|iam|1|2|3|4|") :=
  ⟨row_unchanged_plus_insertion [str "h", str "iam", str "1", str "2", str "3", str "4"]
    3 (str "+----+") (by decide), by decide⟩

/-- Claim C8: for every input text, the benchmark formatter's output starts
with the fixed header block (header line, dashed separator row and trailing
indentation), identical regardless of the input, before any data rows. -/
theorem parser_header_block_invariant (f : Str) :
    ∃ t : Str, formatInput f =
      str "\n    | sdk name | dev | release | dev all features | release all features |\n    | -------- | --- | ------- | ---------------- | -------------------- |\n    " ++ t :=
  ⟨((read_file_chunks f).filterMap processChunk).flatten, rfl⟩

/-- Claim C9: when at least two chunks qualify, the rows are concatenated
directly (no separator), and since no row contains a newline the whole
output splits into exactly four lines, the last one carrying the header
block's trailing indentation followed by every data row. -/
theorem parser_rows_single_line (chunks : List Str)
    (h : 2 ≤ (chunks.filterMap processChunk).length) :
    parser_table chunks = mdHeaderL ++ (chunks.filterMap processChunk).flatten ∧
    splitLinesL (parser_table chunks) = [[],
      str "    | sdk name | dev | release | dev all features | release all features |",
      str "    | -------- | --- | ------- | ---------------- | -------------------- |",
      str "    " ++ (chunks.filterMap processChunk).flatten] := by
  refine ⟨rfl, ?_⟩
  have ht : Char.ofNat 10 ∉ (chunks.filterMap processChunk).flatten := by
    intro hmem
    rcases List.mem_flatten.mp hmem with ⟨r, hr, hcr⟩
    rcases List.mem_filterMap.mp hr with ⟨c, _, hpc⟩
    exact processChunk_no_newline c r hpc hcr
  exact splitLinesL_mdHeader_append _ ht

/-- Witness for `parser_rows_single_line` on two qualifying chunks: both
rows end up on the single final line. -/
theorem parser_rows_single_line_witness :
    splitLinesL (parser_table [str "h\na\nb\nc\nd\ne", str "h\nf\ng\nh\ni\nj"]) = [[],
      str "    | sdk name | dev | release | dev all features | release all features |",
      str "    | -------- | --- | ------- | ---------------- | -------------------- |",
      str "    |a|b|c|d|e||f|g|h|i|j|"] :=
  ((parser_rows_single_line [str "h\na\nb\nc\nd\ne", str "h\nf\ng\nh\ni\nj"]
    (by decide)).2).trans (by decide)

/-! ## Claim theorems for the codegen-diff pipeline -/

/-- Claim C1 (failing input): with the default target set
`codegen-client-test, codegen-server-test, aws:sdk`, the only `mv` command
the generation step runs is the one moving the SDK output; the
smithyprojections of the client and server tests and the python server
example are never moved, because the relocation loop iterates over
`codegen-client`/`codegen-server`, names that are not in the target list
(and its inner `codegen-server-test` comparison can never match). -/
theorem generate_default_targets_moves_only_sdk :
    Effect.runCmd (str "mv aws/sdk/build/aws-sdk " ++ OUTPUT_PATH ++ str "/") ∈
      generate_and_commit_generated_code (str "deadbeef") none ∧
    (generate_and_commit_generated_code (str "deadbeef") none).filter isMvCmd =
      [Effect.runCmd (str "mv aws/sdk/build/aws-sdk " ++ OUTPUT_PATH ++ str "/")] := by
  decide

/-- Claim C5: `diff_link` is pure; with an absent diff location it returns
the empty-diff label exactly, and with a present location its output
contains both the primary markdown link and the `ignoring whitespace` link,
each with the CDN URL followed by `/codegen-diff/` in front of its target. -/
theorem diff_link_pure_spec (dt ed alt_text : Str) (alo : Option Str) :
    diff_link dt ed none alt_text alo = ed ∧
    ∀ loc : Str,
      containsSubL
        (str "[" ++ dt ++ str "](" ++ CDN_URL ++ str "/codegen-diff/" ++ loc ++ str ")")
        (diff_link dt ed (some loc) alt_text alo) = true ∧
      containsSubL
        (str "[" ++ alt_text ++ str "](" ++ CDN_URL ++ str "/codegen-diff/" ++ pyStrOpt alo ++ str ")")
        (diff_link dt ed (some loc) alt_text alo) = true := by
  refine ⟨rfl, ?_⟩
  intro loc
  constructor
  · rw [containsSubL_iff]
    refine ⟨[], str " ([" ++ alt_text ++ str "](" ++ CDN_URL ++ str "/codegen-diff/" ++
      pyStrOpt alo ++ str "))", ?_⟩
    simp only [diff_link, List.append_assoc, List.nil_append]
    simp only [show ∀ T : Str, str ") ([" ++ T = str ")" ++ (str " ([" ++ T) from fun _ => rfl]
  · rw [containsSubL_iff]
    refine ⟨str "[" ++ dt ++ str "](" ++ CDN_URL ++ str "/codegen-diff/" ++ loc ++ str ") (",
      str ")", ?_⟩
    simp only [diff_link, List.append_assoc]
    simp only [show ∀ T : Str, str ") ([" ++ T = str ") (" ++ (str "[" ++ T) from fun _ => rfl,
      show str "))" = str ")" ++ str ")" from rfl]

/-- Claim C10: when the whitespace-sensitive diff location is present but
the whitespace-insensitive one is absent, `diff_link` interpolates Python's
`None` into the f-string: the `ignoring whitespace` link is still emitted
and its URL is the literal text `None` after `/codegen-diff/`. -/
theorem diff_link_none_alternate_literal (dt ed loc alt_text : Str) :
    diff_link dt ed (some loc) alt_text none =
      str "[" ++ dt ++ str "](" ++ CDN_URL ++ str "/codegen-diff/" ++ loc ++
        str ") ([" ++ alt_text ++ str "](" ++ CDN_URL ++ str "/codegen-diff/" ++
        str "None" ++ str "))" ∧
    containsSubL (str "codegen-diff/None") (diff_link dt ed (some loc) alt_text none) = true := by
  constructor
  · rfl
  · rw [containsSubL_iff]
    refine ⟨str "[" ++ dt ++ str "](" ++ CDN_URL ++ str "/codegen-diff/" ++ loc ++
      str ") ([" ++ alt_text ++ str "](" ++ CDN_URL ++ str "/", str "))", ?_⟩
    simp only [diff_link, pyStrOpt, List.append_assoc]
    simp only [show ∀ T : Str, str "/codegen-diff/" ++ T = str "/" ++ (str "codegen-diff/" ++ T)
        from fun _ => rfl,
      show ∀ T : Str, str "codegen-diff/None" ++ T = str "codegen-diff/" ++ (str "None" ++ T)
        from fun _ => rfl]

/-- Claim C6: `make_diff` returns the no-diff sentinel `none` exactly when
the probed quiet `git diff` between the two temporary branches restricted to
the path exits with status 0, logging a line in that case; otherwise it
creates the output directory, materializes a unified diff with 30 context
lines, invokes the `difftags` HTML renderer, and returns the relative path
`base/head/suffix/index.html`. -/
theorem make_diff_spec (title path base head suffix : Str) (ws : Bool) (st : Nat) :
    ((make_diff title path base head suffix ws st).1 = none ↔ st = 0) ∧
    (st = 0 → (make_diff title path base head suffix ws st).2 =
      [Effect.probe (str "git diff --quiet " ++ (if ws then str "" else str "-b") ++ str " " ++
        BASE_BRANCH_NAME ++ str " " ++ HEAD_BRANCH_NAME ++ str " -- " ++ path),
       Effect.log (str "No diff output for " ++ base ++ str ".." ++ head ++ str " (" ++
         suffix ++ str ")")]) ∧
    (st ≠ 0 →
      (make_diff title path base head suffix ws st).1 =
        some (base ++ str "/" ++ head ++ str "/" ++ suffix ++ str "/index.html") ∧
      Effect.runCmd (str "git diff --output=codegen-diff.txt -U30 " ++
        (if ws then str "" else str "-b") ++ str " " ++ BASE_BRANCH_NAME ++ str " " ++
        HEAD_BRANCH_NAME ++ str " -- " ++ path) ∈ (make_diff title path base head suffix ws st).2 ∧
      Effect.runCmd (str "difftags --output-dir " ++ (OUTPUT_PATH ++ str "/" ++
        (base ++ str "/" ++ head ++ str "/" ++ suffix)) ++ str " --title \"" ++ title ++
        str "\" --subtitle \"" ++ (str "rev. " ++ head ++ str " " ++
        (if ws then str "" else str "(ignoring whitespace)")) ++ str "\" codegen-diff.txt") ∈
        (make_diff title path base head suffix ws st).2) := by
  by_cases h0 : st = 0
  · exact ⟨by simp [make_diff, h0], fun _ => by simp [make_diff, h0],
      fun hne => absurd h0 hne⟩
  · refine ⟨by simp [make_diff, h0], fun he => absurd he h0, fun _ => ?_⟩
    refine ⟨by simp [make_diff, h0], ?_, ?_⟩
    · simp [make_diff, h0]
    · simp [make_diff, h0]

/-- Witness for `make_diff_spec`: at status 0 the result is the sentinel, at
status 1 it is the concrete relative path. -/
theorem make_diff_spec_witness :
    (make_diff (str "T") (str "p") (str "b") (str "h") (str "s") true 0).1 = none ∧
    (make_diff (str "T") (str "p") (str "b") (str "h") (str "s") true 1).1 =
      some (str "b/h/s/index.html") := by
  constructor
  · exact (make_diff_spec (str "T") (str "p") (str "b") (str "h") (str "s") true 0).1.mpr rfl
  · exact ((make_diff_spec (str "T") (str "p") (str "b") (str "h") (str "s") true 1).2.2
      (by decide)).1.trans (by decide)

theorem noesc_append_left (x y : Str) (hx : noesc x) (hy : noesc y)
    (hxl : x.getLast? ≠ some (Char.ofNat 92)) : noesc (x ++ y) :=
  noesc_append hx hy (Or.inl hxl)

theorem noesc_append_right (x y : Str) (hx : noesc x) (hy : noesc y)
    (hyh : y.head? ≠ some 'n') : noesc (x ++ y) :=
  noesc_append hx hy (Or.inr hyh)

theorem head_append_ne_n (x T : Str) (hx : x.head? ≠ some 'n') (hne : x ≠ []) :
    (x ++ T).head? ≠ some 'n' := by
  cases x with
  | nil => exact absurd rfl hne
  | cons c cs => simpa using hx

theorem noesc_pyStrOpt (o : Option Str) (ho : ∀ l, o = some l → noesc l) :
    noesc (pyStrOpt o) := by
  cases o with
  | none => decide
  | some l => exact ho l rfl

theorem noesc_diff_link (dt ed : Str) (dl : Option Str) (alt_text : Str) (al : Option Str)
    (hdt : noesc dt) (hed : noesc ed) (hdl : ∀ l, dl = some l → noesc l)
    (halt : noesc alt_text) (hal : ∀ l, al = some l → noesc l) :
    noesc (diff_link dt ed dl alt_text al) := by
  cases dl with
  | none => exact hed
  | some loc =>
    have hloc := hdl loc rfl
    have hao : noesc (pyStrOpt al) := noesc_pyStrOpt al hal
    rw [show diff_link dt ed (some loc) alt_text al =
      str "[" ++ (dt ++ (str "](" ++ (CDN_URL ++ (str "/codegen-diff/" ++ (loc ++
      (str ") ([" ++ (alt_text ++ (str "](" ++ (CDN_URL ++ (str "/codegen-diff/" ++
      (pyStrOpt al ++ str "))"))))))))))) from by simp [diff_link, List.append_assoc]]
    have n1 : noesc (pyStrOpt al ++ str "))") :=
      noesc_append_right _ _ hao (by decide) (by decide)
    have n2 := noesc_append_left (str "/codegen-diff/") _ (by decide) n1 (by decide)
    have n3 := noesc_append_left CDN_URL _ (by decide) n2 (by decide)
    have n4 := noesc_append_left (str "](") _ (by decide) n3 (by decide)
    have n5 := noesc_append_right alt_text _ halt n4
      (head_append_ne_n (str "](") _ (by decide) (by decide))
    have n6 := noesc_append_left (str ") ([") _ (by decide) n5 (by decide)
    have n7 := noesc_append_right loc _ hloc n6
      (head_append_ne_n (str ") ([") _ (by decide) (by decide))
    have n8 := noesc_append_left (str "/codegen-diff/") _ (by decide) n7 (by decide)
    have n9 := noesc_append_left CDN_URL _ (by decide) n8 (by decide)
    have n10 := noesc_append_left (str "](") _ (by decide) n9 (by decide)
    have n11 := noesc_append_right dt _ hdt n10
      (head_append_ne_n (str "](") _ (by decide) (by decide))
    exact noesc_append_left (str "[") _ (by decide) n11 (by decide)

theorem noesc_make_diff_loc (t p sfx base head : Str) (ws : Bool) (st : Nat)
    (hb : noesc base) (hh : noesc head) (hsfx : noesc sfx) :
    ∀ l, (make_diff t p base head sfx ws st).1 = some l → noesc l := by
  intro l hl
  by_cases h0 : st = 0
  · simp [make_diff, h0] at hl
  · simp [make_diff, h0] at hl
    subst hl
    have m1 : noesc (sfx ++ str "/index.html") :=
      noesc_append_right _ _ hsfx (by decide) (by decide)
    have m2 : noesc (str "/" ++ (sfx ++ str "/index.html")) :=
      noesc_append_left _ _ (by decide) m1 (by decide)
    have m3 : noesc (head ++ (str "/" ++ (sfx ++ str "/index.html"))) :=
      noesc_append_right _ _ hh m2 (head_append_ne_n (str "/") _ (by decide) (by decide))
    have m4 : noesc (str "/" ++ (head ++ (str "/" ++ (sfx ++ str "/index.html")))) :=
      noesc_append_left _ _ (by decide) m3 (by decide)
    have m5 : noesc (base ++ (str "/" ++ (head ++ (str "/" ++ (sfx ++ str "/index.html"))))) :=
      noesc_append_right _ _ hb m4 (head_append_ne_n (str "/") _ (by decide) (by decide))
    simpa [List.append_assoc] using m5

theorem pySplit_esc_msg (p0 b1 b2 b3 b4 : Str) (h0 : noesc p0) (h1 : noesc b1)
    (h2 : noesc b2) (h3 : noesc b3) (h4 : noesc b4) :
    pySplit escL (p0 ++ (escL ++ (b1 ++ (escL ++ (b2 ++ (escL ++ (b3 ++ (escL ++
      (b4 ++ escL))))))))) = [p0, b1, b2, b3, b4, []] := by
  rw [pySplit_esc_cons _ _ h0, pySplit_esc_cons _ _ h1, pySplit_esc_cons _ _ h2,
    pySplit_esc_cons _ _ h3, pySplit_esc_end _ h4]

/-- Claim C4 (counterexample): when a commit sha contains the two-character
escape sequence backslash-`n` followed by `- `, the summary of `make_diffs`
splits on the escaped newline into five bullet segments, not four: the
claim fails for such DiffResult values. -/
theorem make_diffs_bullets_cx :
    ((pySplit escL (make_diffs (str "a\\n- b") (str "h") 1 0 0 0 0 0 0 0)).filter
      (fun piece => listStarts (str "- ") piece)).length = 5 ∧
    ¬ ((pySplit escL (make_diffs (str "a\\n- b") (str "h") 1 0 0 0 0 0 0 0)).filter
      (fun piece => listStarts (str "- ") piece)).length = 4 := by decide

/-- Claim C4 (amended): whenever the two commit shas are free of the
escape sequence backslash-`n` (as real hexadecimal shas are), the summary
of `make_diffs` splits on the escaped newline into exactly the heading
line, four bullet lines in the fixed order AWS SDK, Client Test, Server
Test, Server Test Python — each the `diff_link` of the corresponding pair
of diff results, each terminated by the escape sequence — and the empty
trailing segment. -/
theorem make_diffs_four_bullets (base head : Str) (s1 s2 s3 s4 s5 s6 s7 s8 : Nat)
    (hb : noesc base) (hh : noesc head) :
    pySplit escL (make_diffs base head s1 s2 s3 s4 s5 s6 s7 s8) =
      [str "A new generated diff is ready to view.",
       str "- " ++ diff_link (str "AWS SDK") (str "No codegen difference in the AWS SDK")
         (make_diff (str "AWS SDK") (OUTPUT_PATH ++ str "/aws-sdk") base head
           (str "aws-sdk") true s1).1
         (str "ignoring whitespace")
         (make_diff (str "AWS SDK") (OUTPUT_PATH ++ str "/aws-sdk") base head
           (str "aws-sdk-ignore-whitespace") false s2).1,
       str "- " ++ diff_link (str "Client Test") (str "No codegen difference in the Client Test")
         (make_diff (str "Client Test") (OUTPUT_PATH ++ str "/codegen-client-test") base head
           (str "client-test") true s3).1
         (str "ignoring whitespace")
         (make_diff (str "Client Test") (OUTPUT_PATH ++ str "/codegen-client-test") base head
           (str "client-test-ignore-whitespace") false s4).1,
       str "- " ++ diff_link (str "Server Test") (str "No codegen difference in the Server Test")
         (make_diff (str "Server Test") (OUTPUT_PATH ++ str "/codegen-server-test") base head
           (str "server-test") true s5).1
         (str "ignoring whitespace")
         (make_diff (str "Server Test") (OUTPUT_PATH ++ str "/codegen-server-test") base head
           (str "server-test-ignore-whitespace") false s6).1,
       str "- " ++ diff_link (str "Server Test Python")
         (str "No codegen difference in the Server Test Python")
         (make_diff (str "Server Test Python") (OUTPUT_PATH ++ str "/codegen-server-test-python")
           base head (str "server-test-python") true s7).1
         (str "ignoring whitespace")
         (make_diff (str "Server Test Python") (OUTPUT_PATH ++ str "/codegen-server-test-python")
           base head (str "server-test-python-ignore-whitespace") false s8).1,
       []] := by
  have hib1 : noesc (str "- " ++ diff_link (str "AWS SDK")
      (str "No codegen difference in the AWS SDK")
      (make_diff (str "AWS SDK") (OUTPUT_PATH ++ str "/aws-sdk") base head
        (str "aws-sdk") true s1).1
      (str "ignoring whitespace")
      (make_diff (str "AWS SDK") (OUTPUT_PATH ++ str "/aws-sdk") base head
        (str "aws-sdk-ignore-whitespace") false s2).1) :=
    noesc_append_left _ _ (by decide)
      (noesc_diff_link _ _ _ _ _ (by decide) (by decide)
        (noesc_make_diff_loc _ _ _ _ _ _ _ hb hh (by decide)) (by decide)
        (noesc_make_diff_loc _ _ _ _ _ _ _ hb hh (by decide))) (by decide)
  have hib2 : noesc (str "- " ++ diff_link (str "Client Test")
      (str "No codegen difference in the Client Test")
      (make_diff (str "Client Test") (OUTPUT_PATH ++ str "/codegen-client-test") base head
        (str "client-test") true s3).1
      (str "ignoring whitespace")
      (make_diff (str "Client Test") (OUTPUT_PATH ++ str "/codegen-client-test") base head
        (str "client-test-ignore-whitespace") false s4).1) :=
    noesc_append_left _ _ (by decide)
      (noesc_diff_link _ _ _ _ _ (by decide) (by decide)
        (noesc_make_diff_loc _ _ _ _ _ _ _ hb hh (by decide)) (by decide)
        (noesc_make_diff_loc _ _ _ _ _ _ _ hb hh (by decide))) (by decide)
  have hib3 : noesc (str "- " ++ diff_link (str "Server Test")
      (str "No codegen difference in the Server Test")
      (make_diff (str "Server Test") (OUTPUT_PATH ++ str "/codegen-server-test") base head
        (str "server-test") true s5).1
      (str "ignoring whitespace")
      (make_diff (str "Server Test") (OUTPUT_PATH ++ str "/codegen-server-test") base head
        (str "server-test-ignore-whitespace") false s6).1) :=
    noesc_append_left _ _ (by decide)
      (noesc_diff_link _ _ _ _ _ (by decide) (by decide)
        (noesc_make_diff_loc _ _ _ _ _ _ _ hb hh (by decide)) (by decide)
        (noesc_make_diff_loc _ _ _ _ _ _ _ hb hh (by decide))) (by decide)
  have hib4 : noesc (str "- " ++ diff_link (str "Server Test Python")
      (str "No codegen difference in the Server Test Python")
      (make_diff (str "Server Test Python") (OUTPUT_PATH ++ str "/codegen-server-test-python")
        base head (str "server-test-python") true s7).1
      (str "ignoring whitespace")
      (make_diff (str "Server Test Python") (OUTPUT_PATH ++ str "/codegen-server-test-python")
        base head (str "server-test-python-ignore-whitespace") false s8).1) :=
    noesc_append_left _ _ (by decide)
      (noesc_diff_link _ _ _ _ _ (by decide) (by decide)
        (noesc_make_diff_loc _ _ _ _ _ _ _ hb hh (by decide)) (by decide)
        (noesc_make_diff_loc _ _ _ _ _ _ _ hb hh (by decide))) (by decide)
  have harg : make_diffs base head s1 s2 s3 s4 s5 s6 s7 s8 =
      str "A new generated diff is ready to view." ++ (escL ++
      ((str "- " ++ diff_link (str "AWS SDK") (str "No codegen difference in the AWS SDK")
        (make_diff (str "AWS SDK") (OUTPUT_PATH ++ str "/aws-sdk") base head
          (str "aws-sdk") true s1).1
        (str "ignoring whitespace")
        (make_diff (str "AWS SDK") (OUTPUT_PATH ++ str "/aws-sdk") base head
          (str "aws-sdk-ignore-whitespace") false s2).1) ++ (escL ++
      ((str "- " ++ diff_link (str "Client Test") (str "No codegen difference in the Client Test")
        (make_diff (str "Client Test") (OUTPUT_PATH ++ str "/codegen-client-test") base head
          (str "client-test") true s3).1
        (str "ignoring whitespace")
        (make_diff (str "Client Test") (OUTPUT_PATH ++ str "/codegen-client-test") base head
          (str "client-test-ignore-whitespace") false s4).1) ++ (escL ++
      ((str "- " ++ diff_link (str "Server Test") (str "No codegen difference in the Server Test")
        (make_diff (str "Server Test") (OUTPUT_PATH ++ str "/codegen-server-test") base head
          (str "server-test") true s5).1
        (str "ignoring whitespace")
        (make_diff (str "Server Test") (OUTPUT_PATH ++ str "/codegen-server-test") base head
          (str "server-test-ignore-whitespace") false s6).1) ++ (escL ++
      ((str "- " ++ diff_link (str "Server Test Python")
        (str "No codegen difference in the Server Test Python")
        (make_diff (str "Server Test Python") (OUTPUT_PATH ++ str "/codegen-server-test-python")
          base head (str "server-test-python") true s7).1
        (str "ignoring whitespace")
        (make_diff (str "Server Test Python") (OUTPUT_PATH ++ str "/codegen-server-test-python")
          base head (str "server-test-python-ignore-whitespace") false s8).1) ++ escL)))))))) := by
    simp only [make_diffs,
      show str "A new generated diff is ready to view.\\n" =
        str "A new generated diff is ready to view." ++ escL from rfl,
      show str "\\n" = escL from rfl, List.append_assoc]
  rw [harg]
  exact pySplit_esc_msg _ _ _ _ _ (by decide) hib1 hib2 hib3 hib4

/-- Witness for `make_diffs_four_bullets` at concrete shas `b`, `h` with
only the whitespace-sensitive SDK diff present. -/
theorem make_diffs_four_bullets_witness :
    pySplit escL (make_diffs (str "b") (str "h") 1 0 0 0 0 0 0 0) =
      [str "A new generated diff is ready to view.",
       str "- [AWS SDK](https://d2luzm2xt3nokh.cloudfront.net/codegen-diff/b/h/aws-sdk/index.html) ([ignoring whitespace](https://d2luzm2xt3nokh.cloudfront.net/codegen-diff/None))",
       str "- No codegen difference in the Client Test",
       str "- No codegen difference in the Server Test",
       str "- No codegen difference in the Server Test Python",
       []] :=
  (make_diffs_four_bullets (str "b") (str "h") 1 0 0 0 0 0 0 0
    (by decide) (by decide)).trans (by decide)
